import Mathlib

/-!
# Verification of the water-monitor telemetry relay

Shallow embedding of the WebSocket relay server in `src/server.ts` (and the
sibling revisions of the same file kept in the repository), together with
proofs of the testable properties stated in the specification.

The server keeps three pieces of registry state:
  * `subscribers : ExtendedWebSocket[]` — the consumer set (an array),
  * `publisher : ExtendedWebSocket | null` — the at-most-one producer slot,
  * `latestData : SensorData` — the most recently relayed sample (`{}` at start).

Connections are modelled by their identifiers (`Nat`).  A JSON payload is
modelled as a keyed structure (association list of field name to value);
the relay only ever tests presence of the key `"C"`, serialization is the
identity on this model.  Sends that may throw are modelled by a failure
oracle passed in as a parameter; a `try { ... } catch { ... }` in the source
becomes a branch on that oracle.
-/

/-- A JSON scalar value.  Numbers are rationals (enough for payloads such as
`{"PH": 7.1}`); the relay never interprets values, only key presence. -/
inductive JVal where
  | str (s : String)
  | num (q : ℚ)
  | bool (b : Bool)
  deriving DecidableEq, Repr

/-- TypeScript `interface SensorData { C?; PH?; T?; [key: string]: any }` — a parseable
keyed structure, modelled as an association list of fields. -/
abbrev SensorData := List (String × JVal)

/-- Presence of the mandatory conductivity key: the check `"C" in data`. -/
def hasField (k : String) (d : SensorData) : Bool :=
  d.any (fun p => p.1 == k)

/-- Emptiness test `Object.keys(d).length > 0` that the server applies to
`latestData` before replaying it to a new subscriber. -/
def isEmptyData (d : SensorData) : Bool :=
  d.isEmpty

/-- The registry state of `WaterMonitorServer` (fields `subscribers`,
`publisher`, `latestData` of the class in `src/server.ts`). -/
structure ServerState where
  subscribers : List Nat
  publisher : Option Nat
  latestData : SensorData
  deriving DecidableEq, Repr

/-- The state the constructor establishes: no subscribers, no publisher,
`latestData = {}`. -/
def initialState : ServerState :=
  { subscribers := [], publisher := none, latestData := [] }

/-! ## Relay engine: `broadcastToSubscribers` (src/server.ts lines 180–205)

```ts
private broadcastToSubscribers(data: SensorData): void {
  this.latestData = data;
  if (this.subscribers.length === 0) { return; }
  const jsonData = JSON.stringify(data);
  const subscribers = [...this.subscribers]; // copy for safe iteration
  for (const subscriber of subscribers) {
    try { subscriber.send(jsonData); }
    catch (error) {
      const index = this.subscribers.indexOf(subscriber);
      if (index !== -1) { this.subscribers.splice(index, 1); }
    }
  }
}
```

`indexOf` + `splice(index, 1)` removes the first occurrence, i.e.
`List.erase`.  The loop walks the copy `pending` of the original array while
mutating the live array `subs`; successful sends are accumulated in
`delivered`. -/

/-- The fan-out loop of `broadcastToSubscribers`: `pending` is the snapshot
copy being iterated, `subs` the live `this.subscribers` array, `delivered`
the consumers that received the frame so far.  Returns the final live array
and the delivery list. -/
def broadcastLoop (fails : Nat → Bool) :
    List Nat → List Nat → List Nat → List Nat × List Nat
  | [], subs, delivered => (subs, delivered)
  | c :: rest, subs, delivered =>
      if fails c then
        broadcastLoop fails rest (subs.erase c) delivered
      else
        broadcastLoop fails rest subs (delivered ++ [c])

/-- Relay operation `broadcastToSubscribers(data)`: sets `latestData = data`, returns early if
there are no subscribers, otherwise fans out over a copy of the consumer set,
erasing each consumer whose send throws (per the failure oracle `fails`).
Returns the new state and the list of consumers that received the frame. -/
def broadcastToSubscribers (fails : Nat → Bool) (data : SensorData)
    (st : ServerState) : ServerState × List Nat :=
  let st1 : ServerState := { st with latestData := data }
  if st1.subscribers.isEmpty then (st1, [])
  else
    let r := broadcastLoop fails st1.subscribers st1.subscribers []
    ({ st1 with subscribers := r.1 }, r.2)

/-! ## Message handler (src/server.ts lines 121–137)

```ts
extWs.on("message", (message) => {
  try {
    const data = JSON.parse(message.toString());
    if (isPublisher && "C" in data) {
      this.broadcastToSubscribers(data);
    } else if (!isPublisher && data.type === "control") {
      // Implement control message logic if needed
    }
  } catch (error) { ... }
});
```
-/

/-- The `message` handler for an already-parsed payload: a producer message
carrying `C` is broadcast; anything else (consumer messages, producer
messages without `C`) leaves the state untouched and delivers nothing. -/
def onMessage (fails : Nat → Bool) (isPublisher : Bool) (data : SensorData)
    (st : ServerState) : ServerState × List Nat :=
  if isPublisher && hasField "C" data then
    broadcastToSubscribers fails data st
  else
    (st, [])

/-! ## Registry operations from the connection handler
(src/server.ts lines 93–113 and the close handler, lines 140–153) -/

/-- The publisher branch of the connection handler (lines 93–104):

```ts
if (this.publisher) {
  try { this.publisher.close(1000, "New publisher connected"); }
  catch (error) { console.error(...); }
}
this.publisher = extWs;
```

Returns the new state together with the list of connections to which a close
signal was issued.  `closeFails` records whether `close` threw; the `catch`
swallows the error, so it influences nothing. -/
def registerProducer (closeFails : Bool) (conn : Nat) (st : ServerState) :
    ServerState × List Nat :=
  let signals := match st.publisher with
    | some old => [old]
    | none => []
  ({ st with publisher := some conn }, signals)

/-- The subscriber branch of the connection handler (lines 105–113):

```ts
this.subscribers.push(extWs);
if (Object.keys(this.latestData).length > 0) {
  extWs.send(JSON.stringify(this.latestData));
}
```

Returns the new state and the sample replayed to the new consumer, if any. -/
def registerConsumer (conn : Nat) (st : ServerState) :
    ServerState × Option SensorData :=
  let st1 : ServerState := { st with subscribers := st.subscribers ++ [conn] }
  if isEmptyData st1.latestData then (st1, none)
  else (st1, some st1.latestData)

/-- The publisher case of the `close` handler (lines 140–145):

```ts
if (this.publisher === extWs) { this.publisher = null; }
```

Clears the producer slot only when it still holds `conn`. -/
def removeProducer (conn : Nat) (st : ServerState) : ServerState :=
  if st.publisher = some conn then { st with publisher := none } else st

/-- The subscriber case of the `close` handler (lines 146–152):

```ts
const index = this.subscribers.indexOf(extWs);
if (index !== -1) { this.subscribers.splice(index, 1); }
```
-/
def removeConsumer (conn : Nat) (st : ServerState) : ServerState :=
  { st with subscribers := st.subscribers.erase conn }

/-- A whole sequence of producer registrations, threading the state and
accumulating every close signal issued, in order.  Each event is a pair of
the connecting producer and whether closing its predecessor throws. -/
def runRegistrations (events : List (Nat × Bool)) (st : ServerState) :
    ServerState × List Nat :=
  events.foldl
    (fun acc e =>
      let r := registerProducer e.2 e.1 acc.1
      (r.1, acc.2 ++ r.2))
    (st, [])

/-! ## Health endpoint (src/server.ts lines 73–80)

```ts
this.app.get("/health", (req, res) => {
  res.json({
    status: "healthy",
    subscribers: this.subscribers.length,
    publisher: this.publisher ? "connected" : "disconnected"
  });
});
```
-/

/-- The JSON object returned by `GET /health`, as the code builds it. -/
def healthHandler (st : ServerState) : List (String × JVal) :=
  [("status", JVal.str "healthy"),
   ("subscribers", JVal.num (st.subscribers.length : ℚ)),
   ("publisher",
     JVal.str (if st.publisher.isSome then "connected" else "disconnected"))]

/-! ## Lemmas about the fan-out loop -/

/-- Unrolling `broadcastLoop`: the delivered list collects exactly the pending
consumers whose send succeeds, and the live array ends up with every failing
pending consumer erased (first occurrence each), in iteration order. -/
theorem broadcastLoop_eq (fails : Nat → Bool) :
    ∀ (pending subs delivered : List Nat),
      broadcastLoop fails pending subs delivered =
        ((pending.filter fails).foldl List.erase subs,
         delivered ++ pending.filter (fun c => !fails c)) := by
  intro pending
  induction pending with
  | nil => intro subs delivered; simp [broadcastLoop]
  | cons c rest ih =>
      intro subs delivered
      by_cases h : fails c = true
      · simp [broadcastLoop, h, ih]
      · simp only [Bool.not_eq_true] at h
        simp [broadcastLoop, h, ih]

/-- Erasing a list of elements all different from the head leaves the head in
place. -/
theorem foldl_erase_cons (a : Nat) :
    ∀ (fs t : List Nat), (∀ c ∈ fs, c ≠ a) →
      fs.foldl List.erase (a :: t) = a :: fs.foldl List.erase t := by
  intro fs
  induction fs with
  | nil => intro t _; rfl
  | cons c rest ih =>
      intro t h
      have hca : c ≠ a := h c (List.mem_cons_self c rest)
      have : (a :: t).erase c = a :: t.erase c :=
        List.erase_cons_tail (by simpa using (Ne.symm hca))
      simp only [List.foldl_cons, this]
      exact ih (t.erase c) (fun x hx => h x (List.mem_cons_of_mem c hx))

/-- On a duplicate-free array, erasing exactly the failing members (as the
fan-out loop does) is the same as filtering them out. -/
theorem foldl_erase_filter (fails : Nat → Bool) :
    ∀ (l : List Nat), l.Nodup →
      (l.filter fails).foldl List.erase l = l.filter (fun c => !fails c) := by
  intro l
  induction l with
  | nil => intro _; rfl
  | cons a t ih =>
      intro hnd
      have ha : a ∉ t := (List.nodup_cons.mp hnd).1
      have ht : t.Nodup := (List.nodup_cons.mp hnd).2
      by_cases h : fails a = true
      · simp only [List.filter_cons, h, if_true, List.foldl_cons,
          List.erase_cons_head]
        simp only [h, Bool.not_true, if_false]
        simpa [h] using ih ht
      · simp only [Bool.not_eq_true] at h
        have hmem : ∀ c ∈ t.filter fails, c ≠ a := by
          intro c hc hca
          exact ha (hca ▸ (List.mem_of_mem_filter hc))
        simp only [List.filter_cons, h, Bool.false_eq_true, if_false]
        rw [foldl_erase_cons a (t.filter fails) t hmem]
        simp [h, ih ht]

/-- Filtering a list by a predicate and by its negation splits its length. -/
theorem length_filter_split (p : Nat → Bool) :
    ∀ l : List Nat,
      (l.filter p).length + (l.filter (fun c => !p c)).length = l.length := by
  intro l
  induction l with
  | nil => rfl
  | cons a t ih =>
      by_cases h : p a = true <;>
        simp [List.filter_cons, h, ← ih] <;> omega

/-- Claim C2 — Fan-out completeness under partial failure: with a duplicate-free
consumer set of size N of which the failing ones number M < N, every
non-failing consumer receives the message, the resulting consumer set is
exactly the non-failing ones, and its size is N − M; a failing consumer never
aborts delivery to the others. -/
theorem C2_fanout_partial_failure (fails : Nat → Bool) (data : SensorData)
    (st : ServerState) (hnd : st.subscribers.Nodup)
    (hM : (st.subscribers.filter fails).length < st.subscribers.length) :
    (broadcastToSubscribers fails data st).2
        = st.subscribers.filter (fun c => !fails c) ∧
    (broadcastToSubscribers fails data st).1.subscribers
        = st.subscribers.filter (fun c => !fails c) ∧
    (broadcastToSubscribers fails data st).1.subscribers.length
        = st.subscribers.length - (st.subscribers.filter fails).length := by
  have hne : st.subscribers.isEmpty = false := by
    cases h : st.subscribers with
    | nil => rw [h] at hM; simp at hM
    | cons a t => simp [h]
  have hlen := length_filter_split fails st.subscribers
  simp only [broadcastToSubscribers, hne, Bool.false_eq_true, if_false,
    broadcastLoop_eq, foldl_erase_filter fails st.subscribers hnd,
    List.nil_append]
  refine ⟨trivial, trivial, ?_⟩
  omega

/-- Closed witness for `C2_fanout_partial_failure`: three consumers of which
one fails on send — two deliveries, resulting set of size two. -/
theorem C2_fanout_partial_failure_witness :
    ([3, 4, 5] : List Nat).Nodup ∧
    (broadcastToSubscribers (fun c => c == 4) [("C", JVal.num 450)]
        { subscribers := [3, 4, 5], publisher := none, latestData := [] }).2
      = [3, 5] ∧
    (broadcastToSubscribers (fun c => c == 4) [("C", JVal.num 450)]
        { subscribers := [3, 4, 5], publisher := none, latestData := [] }).1.subscribers.length
      = 2 := by
  refine ⟨by decide, ?_, ?_⟩
  · have h := C2_fanout_partial_failure (fun c => c == 4) [("C", JVal.num 450)]
      { subscribers := [3, 4, 5], publisher := none, latestData := [] }
      (by decide) (by decide)
    rw [h.1]; rfl
  · have h := C2_fanout_partial_failure (fun c => c == 4) [("C", JVal.num 450)]
      { subscribers := [3, 4, 5], publisher := none, latestData := [] }
      (by decide) (by decide)
    rw [h.2.2]; rfl

/-- Claim C4 — Late-joining consumer replay: after the producer message
`{C: 450}` is relayed and nothing else arrives, `latestData` holds `{C: 450}`
(non-empty), and a consumer registering at that point is appended to the
consumer set and immediately receives exactly `{C: 450}`. -/
theorem C4_late_join_replay (fails : Nat → Bool) (st : ServerState)
    (conn : Nat) :
    ((onMessage fails true [("C", JVal.num 450)] st).1.latestData
        = [("C", JVal.num 450)]) ∧
    (registerConsumer conn (onMessage fails true [("C", JVal.num 450)] st).1).2
        = some [("C", JVal.num 450)] ∧
    conn ∈ (registerConsumer conn
        (onMessage fails true [("C", JVal.num 450)] st).1).1.subscribers := by
  have hlatest : (onMessage fails true [("C", JVal.num 450)] st).1.latestData
      = [("C", JVal.num 450)] := by
    simp only [onMessage, hasField, List.any_cons, List.any_nil]
    by_cases h : st.subscribers.isEmpty = true <;>
      simp [broadcastToSubscribers, h]
  refine ⟨hlatest, ?_, ?_⟩
  · simp [registerConsumer, hlatest, isEmptyData]
  · simp [registerConsumer, hlatest, isEmptyData]

/-- Claim C5 — Producer payload validation: a producer message without the
mandatory `C` field changes nothing and delivers nothing; a producer message
carrying `C` installs that payload as `latestData`. -/
theorem C5_missing_C_dropped (fails : Nat → Bool) (st : ServerState) :
    (∀ data : SensorData, hasField "C" data = false →
        onMessage fails true data st = (st, [])) ∧
    (∀ data : SensorData, hasField "C" data = true →
        (onMessage fails true data st).1.latestData = data) := by
  constructor
  · intro data h
    simp [onMessage, h]
  · intro data h
    simp only [onMessage, h, Bool.and_true, if_true]
    by_cases hs : st.subscribers.isEmpty = true <;>
      simp [broadcastToSubscribers, hs]

/-- Closed witness for `C5_missing_C_dropped`: the payload `{"PH": 7.1}`
(missing `C`) is discarded with no state change and no delivery, while
`{"C": 450}` becomes the new `latestData`. -/
theorem C5_missing_C_dropped_witness :
    hasField "C" [("PH", JVal.num (71/10))] = false ∧
    onMessage (fun _ => false) true [("PH", JVal.num (71/10))]
        { subscribers := [3], publisher := none, latestData := [] }
      = ({ subscribers := [3], publisher := none, latestData := [] }, []) ∧
    (onMessage (fun _ => false) true [("C", JVal.num 450)]
        { subscribers := [3], publisher := none, latestData := [] }).1.latestData
      = [("C", JVal.num 450)] :=
  ⟨by decide,
   (C5_missing_C_dropped (fun _ => false)
      { subscribers := [3], publisher := none, latestData := [] }).1
      [("PH", JVal.num (71/10))] (by decide),
   (C5_missing_C_dropped (fun _ => false)
      { subscribers := [3], publisher := none, latestData := [] }).2
      [("C", JVal.num 450)] (by decide)⟩

/-- Claim C7 — Guarded producer removal: the `close` handler clears the
producer slot exactly when the slot still holds the closing connection; in
particular, when a superseded producer closes after a new producer was
installed, the new producer stays installed and the state is untouched. -/
theorem C7_remove_producer_guard (st : ServerState) (conn : Nat) :
    (st.publisher = some conn →
        removeProducer conn st = { st with publisher := none }) ∧
    (st.publisher ≠ some conn → removeProducer conn st = st) ∧
    (∀ old newC closeFails, old ≠ newC →
        removeProducer old (registerProducer closeFails newC st).1
          = (registerProducer closeFails newC st).1) := by
  refine ⟨?_, ?_, ?_⟩
  · intro h; simp [removeProducer, h]
  · intro h; simp [removeProducer, h]
  · intro old newC closeFails hne
    have : (registerProducer closeFails newC st).1.publisher ≠ some old := by
      simp [registerProducer]
      exact fun h => hne (h ▸ rfl)
    simp [removeProducer, this]

/-- Closed witness for `C7_remove_producer_guard`: producer 1 supersedes
producer 0; when 0 finally closes, 1 remains installed. -/
theorem C7_remove_producer_guard_witness :
    removeProducer 0
        (registerProducer false 1
          { subscribers := [], publisher := some 0, latestData := [] }).1
      = (registerProducer false 1
          { subscribers := [], publisher := some 0, latestData := [] }).1 :=
  (C7_remove_producer_guard
      { subscribers := [], publisher := some 0, latestData := [] } 0).2.2
    0 1 false (by decide)

/-- Claim C10 — Consumer frames never mutate relay state: a message arriving
from a consumer-role connection, even one carrying the conductivity field
`C`, is not broadcast and leaves the producer slot, the consumer set and
`latestData` unchanged. -/
theorem C10_consumer_message_no_effect (fails : Nat → Bool)
    (st : ServerState) (data : SensorData) (hC : hasField "C" data = true) :
    onMessage fails false data st = (st, []) := by
  simp [onMessage]

/-- Closed witness for `C10_consumer_message_no_effect`: a consumer sending
`{"C": 450}` causes no broadcast and no state change. -/
theorem C10_consumer_message_no_effect_witness :
    hasField "C" [("C", JVal.num 450)] = true ∧
    onMessage (fun _ => false) false [("C", JVal.num 450)]
        { subscribers := [3], publisher := some 0, latestData := [] }
      = ({ subscribers := [3], publisher := some 0, latestData := [] }, []) :=
  ⟨by decide,
   C10_consumer_message_no_effect (fun _ => false)
     { subscribers := [3], publisher := some 0, latestData := [] }
     [("C", JVal.num 450)] (by decide)⟩

/-- The `/health` response shape the specification describes, built from the
same registry state: `{ status, subscriber_count, producer_connected: bool }`
with a boolean producer flag.  Stated only to compare against
`healthHandler`, which is what the code actually returns. -/
def healthSpecShape (st : ServerState) : List (String × JVal) :=
  [("status", JVal.str "healthy"),
   ("subscriber_count", JVal.num (st.subscribers.length : ℚ)),
   ("producer_connected", JVal.bool st.publisher.isSome)]

/-- Claim C9, counterexample — the health payload the code builds has no
`producer_connected` field and no `subscriber_count` field at all, and in
particular no boolean field: the producer indicator is the string
`"connected"` or `"disconnected"` under the key `"publisher"`. -/
theorem C9_health_shape_counterexample :
    (healthHandler initialState).lookup "producer_connected" = none ∧
    (healthHandler initialState).lookup "subscriber_count" = none ∧
    (∀ b : Bool, (healthHandler initialState).lookup "producer_connected"
        ≠ some (JVal.bool b)) ∧
    (healthHandler initialState).lookup "publisher"
        = some (JVal.str "disconnected") ∧
    healthHandler initialState ≠ healthSpecShape initialState := by
  refine ⟨rfl, rfl, ?_, rfl, by decide⟩
  intro b
  simp [healthHandler, initialState, List.lookup]

/-- Claim C9, amended — the endpoint `GET /health` returns
`{ status, subscribers, publisher }` where `subscribers` is the current size
of the consumer set and `publisher` is the string `"connected"` exactly when
a producer is installed, `"disconnected"` otherwise. -/
theorem C9_health_amended (st : ServerState) :
    (healthHandler st).lookup "status" = some (JVal.str "healthy") ∧
    (healthHandler st).lookup "subscribers"
        = some (JVal.num (st.subscribers.length : ℚ)) ∧
    ((healthHandler st).lookup "publisher" = some (JVal.str "connected")
        ↔ st.publisher.isSome = true) := by
  refine ⟨rfl, rfl, ?_⟩
  cases h : st.publisher <;> simp [healthHandler, h, List.lookup]

/-! ## C1: producer supersession over arbitrary registration sequences -/

/-- The close signals `registerProducer` issues are exactly the occupant of
the producer slot, if any. -/
theorem registerProducer_signals (closeFails : Bool) (conn : Nat)
    (st : ServerState) :
    (registerProducer closeFails conn st).2 = st.publisher.toList := by
  cases h : st.publisher <;> simp [registerProducer, h]

/-- Splitting a registration sequence at its last event. -/
theorem runRegistrations_snoc (events : List (Nat × Bool)) (e : Nat × Bool)
    (st : ServerState) :
    runRegistrations (events ++ [e]) st =
      ((registerProducer e.2 e.1 (runRegistrations events st).1).1,
       (runRegistrations events st).2
         ++ (registerProducer e.2 e.1 (runRegistrations events st).1).2) := by
  simp [runRegistrations, List.foldl_append]

/-- Running any registration sequence from the initial state: the producer
slot holds the most recent registrant, and the close signals issued so far
together with the current occupant enumerate, in order, every producer that
ever registered. -/
theorem runRegistrations_characterize (events : List (Nat × Bool)) :
    (runRegistrations events initialState).1.publisher
        = (events.map Prod.fst).getLast? ∧
    (runRegistrations events initialState).2
        ++ ((events.map Prod.fst).getLast?).toList
      = events.map Prod.fst := by
  induction events using List.reverseRecOn with
  | nil => exact ⟨rfl, rfl⟩
  | append_singleton l e ih =>
      rw [runRegistrations_snoc l e initialState]
      constructor
      · simp [registerProducer]
      · simp only [registerProducer_signals, List.map_append, List.map_cons,
          List.map_nil, List.getLast?_concat, Option.toList_some]
        rw [ih.1, ih.2]

/-- Claim C1 — At most one producer, with supersession signals: after any
sequence of producer registrations ending in event `e`, the slot holds
exactly the connection of `e`, and the close signals issued are precisely all the
previously installed producers, in installation order — regardless of
whether any of the close calls threw (the `Bool` components of the events
are arbitrary). -/
theorem C1_producer_supersession (events : List (Nat × Bool))
    (e : Nat × Bool) :
    (runRegistrations (events ++ [e]) initialState).1.publisher = some e.1 ∧
    (runRegistrations (events ++ [e]) initialState).2
        = events.map Prod.fst := by
  have h := runRegistrations_characterize (events ++ [e])
  have hpub : (runRegistrations (events ++ [e]) initialState).1.publisher
      = some e.1 := by
    rw [h.1]; simp
  refine ⟨hpub, ?_⟩
  have h2 := h.2
  simp only [List.map_append, List.map_cons, List.map_nil,
    List.getLast?_concat, Option.toList_some] at h2
  simpa using h2

/-! ## C8: best-effort replay on consumer registration
(src/unnamed revision of server.ts, subscriber branch, lines 123–135)

```ts
this.subscribers.push(extWs);
if (Object.keys(this.latestData).length > 0) {
  try {
    extWs.send(JSON.stringify(this.latestData));
  } catch (error) {
    log("ERROR", "Failed to send initial data to subscriber", error);
  }
}
```
-/

/-- The subscriber branch with the guarded initial send: the new consumer is
pushed first; if `latestData` is non-empty a send is attempted, and a send
failure is caught and logged.  Returns the new state and whether a send
failure was logged. -/
def registerConsumerLogged (sendFails : Bool) (conn : Nat)
    (st : ServerState) : ServerState × Bool :=
  let st1 : ServerState := { st with subscribers := st.subscribers ++ [conn] }
  if isEmptyData st1.latestData then (st1, false)
  else if sendFails then (st1, true)
  else (st1, false)

/-- Claim C8 — Registration survives a failed replay: with a non-empty
`latestData`, registering a consumer whose initial send throws still appends
it to the consumer set, leaves the rest of the state untouched, and the
failure is logged exactly when the send threw. -/
theorem C8_replay_best_effort (sendFails : Bool) (conn : Nat)
    (st : ServerState) (h : st.latestData ≠ []) :
    (registerConsumerLogged sendFails conn st).1.subscribers
        = st.subscribers ++ [conn] ∧
    conn ∈ (registerConsumerLogged sendFails conn st).1.subscribers ∧
    (registerConsumerLogged sendFails conn st).1.publisher = st.publisher ∧
    (registerConsumerLogged sendFails conn st).1.latestData
        = st.latestData ∧
    ((registerConsumerLogged sendFails conn st).2 = true
        ↔ sendFails = true) := by
  have hne : isEmptyData st.latestData = false := by
    simpa [isEmptyData, List.isEmpty_iff] using h
  cases sendFails <;>
    simp [registerConsumerLogged, hne]

/-- Closed witness for `C8_replay_best_effort`: the replay of `{C: 450}` to
consumer 5 throws, yet 5 ends up registered and the failure is logged. -/
theorem C8_replay_best_effort_witness :
    ([("C", JVal.num 450)] : SensorData) ≠ [] ∧
    (registerConsumerLogged true 5
        { subscribers := [3], publisher := none,
          latestData := [("C", JVal.num 450)] }).1.subscribers = [3, 5] ∧
    (registerConsumerLogged true 5
        { subscribers := [3], publisher := none,
          latestData := [("C", JVal.num 450)] }).2 = true := by
  refine ⟨by decide, ?_, ?_⟩
  · have h := C8_replay_best_effort true 5
      { subscribers := [3], publisher := none,
        latestData := [("C", JVal.num 450)] } (by decide)
    rw [h.1]; rfl
  · have h := C8_replay_best_effort true 5
      { subscribers := [3], publisher := none,
        latestData := [("C", JVal.num 450)] } (by decide)
    exact h.2.2.2.2.mpr rfl

/-! ## C6: role assignment in the registration-message revision
(src/unnamed revision of server.ts with `handleRegistration`, lines 176–207)

```ts
private handleRegistration(ws, role, clientIp) {
  if (role === "publisher") {
    if (this.publisher) {
      try { this.publisher.send(JSON.stringify({ type: "disconnect", ... })); }
      catch (e) { ... }
    }
    ws.isPublisher = true;
    this.publisher = ws;
    ws.send(JSON.stringify({ type: "registered", role: "publisher" }));
  } else {
    this.subscribers.push(ws);
    ws.send(JSON.stringify({ type: "registered", role: "subscriber" }));
    if (Object.keys(this.latestData).length > 0) { ws.send(...); }
  }
}
```

Nothing removes a connection from `subscribers` when it later registers as
publisher, and nothing stops a connection from sending a second `register`
frame: the message handler dispatches every `{type: "register"}` frame to
`handleRegistration` unconditionally.
-/

/-- Registry state of the registration-message revision; `pubFlagged` is the
set of connections whose `isPublisher` flag has been set. -/
structure Reg2State where
  subscribers : List Nat
  publisher : Option Nat
  pubFlagged : List Nat
  latestData : SensorData
  deriving DecidableEq, Repr

/-- Initial state of the registration-message revision. -/
def initialReg2 : Reg2State :=
  { subscribers := [], publisher := none, pubFlagged := [], latestData := [] }

/-- Registration dispatch `handleRegistration(ws, role)` restricted to its registry mutations:
`role === "publisher"` marks the connection and installs it in the producer
slot (after best-effort notification of the old one, which mutates nothing);
any other role appends the connection to the consumer set. -/
def handleRegistration (conn : Nat) (role : String) (st : Reg2State) :
    Reg2State :=
  if role == "publisher" then
    { st with
        pubFlagged :=
          if conn ∈ st.pubFlagged then st.pubFlagged
          else conn :: st.pubFlagged,
        publisher := some conn }
  else
    { st with subscribers := st.subscribers ++ [conn] }

/-- A sequence of `register` frames, each a pair of connection and requested
role, dispatched in order. -/
def runReg2 (events : List (Nat × String)) (st : Reg2State) : Reg2State :=
  events.foldl (fun s e => handleRegistration e.1 e.2 s) st

/-- Claim C6, counterexample — a connection that registers first as a consumer
and then re-registers as a producer ends up simultaneously in the consumer
set and in the producer slot: the registration-message revision neither
fixes a connection role permanently nor removes a re-registering consumer. -/
theorem C6_both_roles_counterexample :
    (runReg2 [(7, "subscriber"), (7, "publisher")] initialReg2).publisher
        = some 7 ∧
    7 ∈ (runReg2 [(7, "subscriber"), (7, "publisher")] initialReg2).subscribers := by
  decide

/-- Dispatching a sequence of `register` frames one at a time. -/
theorem runReg2_cons (e : Nat × String) (rest : List (Nat × String))
    (st : Reg2State) :
    runReg2 (e :: rest) st = runReg2 rest (handleRegistration e.1 e.2 st) :=
  rfl

/-- The consumer set after a sequence of `register` frames: the initial set
followed by the connections of the non-publisher registrations, in order. -/
theorem runReg2_subscribers (events : List (Nat × String)) :
    ∀ st : Reg2State,
      (runReg2 events st).subscribers
        = st.subscribers
            ++ (events.filter (fun e => !(e.2 == "publisher"))).map Prod.fst := by
  induction events with
  | nil => intro st; simp [runReg2]
  | cons e rest ih =>
      intro st
      rw [runReg2_cons, ih]
      by_cases h : (e.2 == "publisher") = true
      · simp [handleRegistration, h, List.filter_cons]
      · simp only [Bool.not_eq_true] at h
        simp [handleRegistration, h, List.filter_cons]

/-- The producer slot after a sequence of `register` frames is the fold that
keeps the most recent publisher registration. -/
theorem runReg2_publisher (events : List (Nat × String)) :
    ∀ st : Reg2State,
      (runReg2 events st).publisher
        = events.foldl
            (fun acc e => if e.2 == "publisher" then some e.1 else acc)
            st.publisher := by
  induction events with
  | nil => intro st; simp [runReg2]
  | cons e rest ih =>
      intro st
      rw [runReg2_cons, ih]
      by_cases h : (e.2 == "publisher") = true
      · have h2 : e.2 = "publisher" := by simpa using h
        simp [handleRegistration, h, h2, List.foldl_cons]
      · simp only [Bool.not_eq_true] at h
        have h2 : e.2 ≠ "publisher" := by simpa using h
        simp [handleRegistration, h, h2, List.foldl_cons]

/-- If the publisher fold ends on `some p`, then `p` either occupied the
slot initially or sent a publisher registration. -/
theorem publisher_fold_mem (events : List (Nat × String)) :
    ∀ (init : Option Nat) (p : Nat),
      events.foldl
          (fun acc e => if e.2 == "publisher" then some e.1 else acc)
          init = some p →
        init = some p
          ∨ p ∈ (events.filter (fun e => e.2 == "publisher")).map Prod.fst := by
  induction events with
  | nil => intro init p h; exact Or.inl h
  | cons e rest ih =>
      intro init p h
      by_cases he : (e.2 == "publisher") = true
      · simp only [List.foldl_cons, he, if_true] at h
        rcases ih (some e.1) p h with h1 | h1
        · right; simp [List.filter_cons, he]
          exact Or.inl (Option.some_injective _ h1).symm
        · right; simp [List.filter_cons, he]
          right
          simpa using h1
      · simp only [Bool.not_eq_true] at he
        simp only [List.foldl_cons, he, Bool.false_eq_true, if_false] at h
        rcases ih init p h with h1 | h1
        · exact Or.inl h1
        · right; simpa [List.filter_cons, he] using h1

/-- Each registration event lands in exactly one of the two role filters, so
the occurrence counts of a connection split accordingly. -/
theorem count_split_roles (p : Nat) :
    ∀ events : List (Nat × String),
      ((events.filter (fun e => e.2 == "publisher")).map Prod.fst).count p
        + ((events.filter (fun e => !(e.2 == "publisher"))).map Prod.fst).count p
      = (events.map Prod.fst).count p := by
  intro events
  induction events with
  | nil => rfl
  | cons e rest ih =>
      by_cases h : (e.2 == "publisher") = true <;>
        simp [List.filter_cons, h, List.count_cons] <;> omega

/-- Claim C6, amended — One role per connection: provided every connection sends
at most one `register` frame (the event connections are pairwise distinct),
no connection ends up simultaneously in the producer slot and in the
consumer set.  (Without that proviso the invariant fails, see the
counterexample: a consumer that re-registers as producer holds both roles.) -/
theorem C6_role_disjoint_amended (events : List (Nat × String))
    (hnd : (events.map Prod.fst).Nodup) (p : Nat)
    (hp : (runReg2 events initialReg2).publisher = some p) :
    p ∉ (runReg2 events initialReg2).subscribers := by
  intro hmem
  rw [runReg2_publisher] at hp
  have hp2 := publisher_fold_mem events none p
    (by simpa [initialReg2] using hp)
  have hpubs : p ∈ (events.filter (fun e => e.2 == "publisher")).map Prod.fst := by
    rcases hp2 with h1 | h1
    · exact absurd h1 (by simp)
    · exact h1
  have hsubs : p ∈ (events.filter (fun e => !(e.2 == "publisher"))).map Prod.fst := by
    rw [runReg2_subscribers] at hmem
    simpa [initialReg2] using hmem
  have hc1 : 0 < ((events.filter (fun e => e.2 == "publisher")).map Prod.fst).count p :=
    List.count_pos_iff.mpr hpubs
  have hc2 : 0 < ((events.filter (fun e => !(e.2 == "publisher"))).map Prod.fst).count p :=
    List.count_pos_iff.mpr hsubs
  have hsum := count_split_roles p events
  have hle : (events.map Prod.fst).count p ≤ 1 :=
    List.nodup_iff_count_le_one.mp hnd p
  omega

/-- Closed witness for `C6_role_disjoint_amended`: two distinct connections,
one registering each role — the producer is not in the consumer set. -/
theorem C6_role_disjoint_amended_witness :
    (([(0, "publisher"), (1, "subscriber")].map Prod.fst) : List Nat).Nodup ∧
    (runReg2 [(0, "publisher"), (1, "subscriber")] initialReg2).publisher
        = some 0 ∧
    0 ∉ (runReg2 [(0, "publisher"), (1, "subscriber")] initialReg2).subscribers :=
  ⟨by decide, by decide,
   C6_role_disjoint_amended [(0, "publisher"), (1, "subscriber")]
     (by decide) 0 (by decide)⟩

/-! ## C3: liveness supervision (src/server.ts lines 116–118 and 161–177)

```ts
extWs.on("pong", () => { extWs.isAlive = true; });

setInterval(() => {
  this.wss.clients.forEach((ws) => {
    const extWs = ws as ExtendedWebSocket;
    if (!extWs.isAlive) { return ws.terminate(); }
    extWs.isAlive = false;
    try { extWs.ping(); }
    catch (error) { ws.terminate(); }
  });
}, 30000);
```

`wss.clients` is the set of live transport connections; `terminate()`
destroys the transport, which fires the `close` handler and thus removes the
connection from the registry (producer slot or consumer set according to the
role fixed at connect time, `isPub`).  The sweep visits each member of the
set once; a termination removes only the connection being visited, so the
iteration is modelled as a fold over the client list. -/

/-- The full server state seen by the liveness supervisor: the transport set
`clients`, the per-connection liveness flags, and the registry. -/
structure LiveState where
  clients : List Nat
  isAlive : Nat → Bool
  subscribers : List Nat
  publisher : Option Nat

/-- The `pong` handler: sets the liveness flag of `conn` back to true. -/
def pongHandler (conn : Nat) (st : LiveState) : LiveState :=
  { st with isAlive := fun c => if c = conn then true else st.isAlive c }

/-- The `close` handler (lines 140–153), parameterised by the role map fixed
at connect time. -/
def closeHandlerL (isPub : Nat → Bool) (conn : Nat) (st : LiveState) :
    LiveState :=
  if isPub conn then
    if st.publisher = some conn then { st with publisher := none } else st
  else
    { st with subscribers := st.subscribers.erase conn }

/-- Termination `ws.terminate()`: destroys the transport (removing it from
`wss.clients`), which fires the `close` handler. -/
def terminateConn (isPub : Nat → Bool) (conn : Nat) (st : LiveState) :
    LiveState :=
  closeHandlerL isPub conn { st with clients := st.clients.erase conn }

/-- One visit of the sweep: a connection whose flag is down is terminated;
otherwise its flag is cleared and it is pinged, a ping failure counting as a
missed response. -/
def sweepStep (isPub pingFails : Nat → Bool) (st : LiveState) (conn : Nat) :
    LiveState :=
  if st.isAlive conn = false then terminateConn isPub conn st
  else
    let st1 : LiveState :=
      { st with isAlive := fun c => if c = conn then false else st.isAlive c }
    if pingFails conn then terminateConn isPub conn st1 else st1

/-- One liveness sweep: visit every current client once. -/
def sweep (isPub pingFails : Nat → Bool) (st : LiveState) : LiveState :=
  st.clients.foldl (sweepStep isPub pingFails) st

/-- The pong frames arriving between two sweeps. -/
def applyPongs (pongs : List Nat) (st : LiveState) : LiveState :=
  pongs.foldl (fun s c => pongHandler c s) st

/-- A run of the supervisor: each round is the pong frames received since the
previous sweep followed by one sweep (with its ping-failure oracle). -/
def runRounds (isPub : Nat → Bool)
    (rounds : List (List Nat × (Nat → Bool))) (st : LiveState) : LiveState :=
  rounds.foldl (fun s r => sweep isPub r.2 (applyPongs r.1 s)) st

/-- A connection is fully evicted: gone from the transport set and from both
registry slots. -/
def evictedFrom (x : Nat) (st : LiveState) : Prop :=
  x ∉ st.clients ∧ x ∉ st.subscribers ∧ st.publisher ≠ some x


/-- The `close` handler never touches the transport set. -/
theorem closeHandlerL_clients (isPub : Nat → Bool) (c : Nat) (st : LiveState) :
    (closeHandlerL isPub c st).clients = st.clients := by
  unfold closeHandlerL
  split_ifs <;> rfl

/-- The `close` handler never touches the liveness flags. -/
theorem closeHandlerL_isAlive (isPub : Nat → Bool) (c : Nat) (st : LiveState) :
    (closeHandlerL isPub c st).isAlive = st.isAlive := by
  unfold closeHandlerL
  split_ifs <;> rfl

/-- The `close` handler leaves the consumer set unchanged or erases the
closing connection. -/
theorem closeHandlerL_subscribers (isPub : Nat → Bool) (c : Nat)
    (st : LiveState) :
    (closeHandlerL isPub c st).subscribers = st.subscribers ∨
    (closeHandlerL isPub c st).subscribers = st.subscribers.erase c := by
  unfold closeHandlerL
  split_ifs <;> simp

/-- The `close` handler leaves the producer slot unchanged or clears it. -/
theorem closeHandlerL_publisher (isPub : Nat → Bool) (c : Nat)
    (st : LiveState) :
    (closeHandlerL isPub c st).publisher = st.publisher ∨
    (closeHandlerL isPub c st).publisher = none := by
  unfold closeHandlerL
  split_ifs <;> simp

/-- Termination erases exactly the terminated connection from the transport
set. -/
theorem terminateConn_clients (isPub : Nat → Bool) (c : Nat) (st : LiveState) :
    (terminateConn isPub c st).clients = st.clients.erase c := by
  unfold terminateConn
  rw [closeHandlerL_clients]

/-- Termination does not touch liveness flags. -/
theorem terminateConn_isAlive (isPub : Nat → Bool) (c : Nat) (st : LiveState) :
    (terminateConn isPub c st).isAlive = st.isAlive := by
  unfold terminateConn
  rw [closeHandlerL_isAlive]

/-- Termination leaves the consumer set unchanged or erases the terminated
connection. -/
theorem terminateConn_subscribers (isPub : Nat → Bool) (c : Nat)
    (st : LiveState) :
    (terminateConn isPub c st).subscribers = st.subscribers ∨
    (terminateConn isPub c st).subscribers = st.subscribers.erase c := by
  unfold terminateConn
  exact closeHandlerL_subscribers isPub c _

/-- Termination leaves the producer slot unchanged or clears it. -/
theorem terminateConn_publisher (isPub : Nat → Bool) (c : Nat)
    (st : LiveState) :
    (terminateConn isPub c st).publisher = st.publisher ∨
    (terminateConn isPub c st).publisher = none := by
  unfold terminateConn
  exact closeHandlerL_publisher isPub c _

/-- State with the liveness flag of the visited connection cleared. -/
def flagCleared (c : Nat) (st : LiveState) : LiveState :=
  { st with isAlive := fun x => if x = c then false else st.isAlive x }

/-- A sweep visit is one of: terminating a silent connection, terminating a
connection whose ping failed (after clearing its flag), or just clearing the
flag and pinging successfully. -/
theorem sweepStep_cases (isPub pf : Nat → Bool) (st : LiveState) (c : Nat) :
    (st.isAlive c = false ∧
        sweepStep isPub pf st c = terminateConn isPub c st) ∨
    (st.isAlive c = true ∧ pf c = true ∧
        sweepStep isPub pf st c = terminateConn isPub c (flagCleared c st)) ∨
    (st.isAlive c = true ∧ pf c = false ∧
        sweepStep isPub pf st c = flagCleared c st) := by
  unfold sweepStep flagCleared
  by_cases h1 : st.isAlive c = false
  · left; exact ⟨h1, by simp [h1]⟩
  · have h1t : st.isAlive c = true := by
      cases h : st.isAlive c
      · exact absurd h h1
      · rfl
    by_cases h2 : pf c = true
    · right; left; exact ⟨h1t, h2, by simp [h1t, h2]⟩
    · right; right
      have h2f : pf c = false := by
        cases h : pf c
        · rfl
        · exact absurd h h2
      exact ⟨h1t, h2f, by simp [h1t, h2f]⟩

/-- One sweep visit leaves the client list unchanged or erases the visited
connection. -/
theorem sweepStep_clients (isPub pf : Nat → Bool) (st : LiveState) (c : Nat) :
    (sweepStep isPub pf st c).clients = st.clients ∨
    (sweepStep isPub pf st c).clients = st.clients.erase c := by
  rcases sweepStep_cases isPub pf st c with ⟨_, h⟩ | ⟨_, _, h⟩ | ⟨_, _, h⟩ <;>
    rw [h]
  · right; rw [terminateConn_clients]
  · right; rw [terminateConn_clients]; rfl
  · left; rfl

/-- One sweep visit leaves the consumer set unchanged or erases the visited
connection. -/
theorem sweepStep_subscribers (isPub pf : Nat → Bool) (st : LiveState)
    (c : Nat) :
    (sweepStep isPub pf st c).subscribers = st.subscribers ∨
    (sweepStep isPub pf st c).subscribers = st.subscribers.erase c := by
  rcases sweepStep_cases isPub pf st c with ⟨_, h⟩ | ⟨_, _, h⟩ | ⟨_, _, h⟩ <;>
    rw [h]
  · exact terminateConn_subscribers isPub c st
  · exact terminateConn_subscribers isPub c (flagCleared c st)
  · left; rfl

/-- One sweep visit leaves the producer slot unchanged or clears it. -/
theorem sweepStep_publisher (isPub pf : Nat → Bool) (st : LiveState)
    (c : Nat) :
    (sweepStep isPub pf st c).publisher = st.publisher ∨
    (sweepStep isPub pf st c).publisher = none := by
  rcases sweepStep_cases isPub pf st c with ⟨_, h⟩ | ⟨_, _, h⟩ | ⟨_, _, h⟩ <;>
    rw [h]
  · exact terminateConn_publisher isPub c st
  · exact terminateConn_publisher isPub c (flagCleared c st)
  · left; rfl

/-- A liveness flag that is down stays down across any sweep visit (no pong
is processed inside a sweep). -/
theorem sweepStep_isAlive_false (isPub pf : Nat → Bool) (st : LiveState)
    (c x : Nat) (h : st.isAlive x = false) :
    (sweepStep isPub pf st c).isAlive x = false := by
  rcases sweepStep_cases isPub pf st c with ⟨_, hs⟩ | ⟨_, _, hs⟩ | ⟨_, _, hs⟩ <;>
    rw [hs]
  · rw [terminateConn_isAlive]; exact h
  · rw [terminateConn_isAlive]
    simp only [flagCleared]
    by_cases hx : x = c <;> simp [hx, h]
  · simp only [flagCleared]
    by_cases hx : x = c <;> simp [hx, h]

/-- A sweep visit of a different connection does not touch this one: its
transport membership, registry membership, slot occupancy and liveness flag
are all preserved. -/
theorem sweepStep_other (isPub pf : Nat → Bool) (st : LiveState) (c x : Nat)
    (hxc : x ≠ c) :
    (x ∈ st.clients → x ∈ (sweepStep isPub pf st c).clients) ∧
    (x ∈ st.subscribers → x ∈ (sweepStep isPub pf st c).subscribers) ∧
    (st.publisher = some x → (sweepStep isPub pf st c).publisher = some x) ∧
    (sweepStep isPub pf st c).isAlive x = st.isAlive x := by
  have hflag : ∀ st2 : LiveState, (flagCleared c st2).isAlive x = st2.isAlive x := by
    intro st2; simp [flagCleared, hxc]
  have hpubNe : ∀ st2 : LiveState, st2.publisher = some x →
      (closeHandlerL isPub c st2).publisher = some x := by
    intro st2 hp
    unfold closeHandlerL
    split_ifs with h1 h2
    · rw [hp] at h2
      exact absurd (Option.some_injective _ h2) hxc
    · exact hp
    · exact hp
  refine ⟨?_, ?_, ?_, ?_⟩
  · intro h
    rcases sweepStep_clients isPub pf st c with h1 | h1 <;> rw [h1]
    · exact h
    · exact (List.mem_erase_of_ne hxc).mpr h
  · intro h
    rcases sweepStep_subscribers isPub pf st c with h1 | h1 <;> rw [h1]
    · exact h
    · exact (List.mem_erase_of_ne hxc).mpr h
  · intro h
    rcases sweepStep_cases isPub pf st c with ⟨_, hs⟩ | ⟨_, _, hs⟩ | ⟨_, _, hs⟩ <;>
      rw [hs]
    · exact hpubNe _ h
    · exact hpubNe _ h
    · exact h
  · rcases sweepStep_cases isPub pf st c with ⟨_, hs⟩ | ⟨_, _, hs⟩ | ⟨_, _, hs⟩ <;>
      rw [hs]
    · rw [terminateConn_isAlive]
    · rw [terminateConn_isAlive]; exact hflag st
    · exact hflag st

/-- Sweep visits never grow the client list. -/
theorem sweepStep_clients_mem (isPub pf : Nat → Bool) (st : LiveState)
    (c x : Nat) (h : x ∈ (sweepStep isPub pf st c).clients) :
    x ∈ st.clients := by
  rcases sweepStep_clients isPub pf st c with h1 | h1 <;> rw [h1] at h
  · exact h
  · exact List.mem_of_mem_erase h

/-- Sweep visits never grow the consumer set. -/
theorem sweepStep_subscribers_mem (isPub pf : Nat → Bool) (st : LiveState)
    (c x : Nat) (h : x ∈ (sweepStep isPub pf st c).subscribers) :
    x ∈ st.subscribers := by
  rcases sweepStep_subscribers isPub pf st c with h1 | h1 <;> rw [h1] at h
  · exact h
  · exact List.mem_of_mem_erase h

/-- Sweep visits preserve duplicate-freeness of the client list. -/
theorem sweepStep_clients_nodup (isPub pf : Nat → Bool) (st : LiveState)
    (c : Nat) (h : st.clients.Nodup) :
    (sweepStep isPub pf st c).clients.Nodup := by
  rcases sweepStep_clients isPub pf st c with h1 | h1 <;> rw [h1]
  · exact h
  · exact h.erase c

/-- Sweep visits preserve duplicate-freeness of the consumer set. -/
theorem sweepStep_subscribers_nodup (isPub pf : Nat → Bool) (st : LiveState)
    (c : Nat) (h : st.subscribers.Nodup) :
    (sweepStep isPub pf st c).subscribers.Nodup := by
  rcases sweepStep_subscribers isPub pf st c with h1 | h1 <;> rw [h1]
  · exact h
  · exact h.erase c

/-- Eviction is absorbing within a sweep: once a connection is out of the
transport set and the registry, later visits cannot bring it back. -/
theorem sweepStep_evicted (isPub pf : Nat → Bool) (st : LiveState) (c x : Nat)
    (h : evictedFrom x st) : evictedFrom x (sweepStep isPub pf st c) := by
  obtain ⟨h1, h2, h3⟩ := h
  refine ⟨?_, ?_, ?_⟩
  · exact fun hm => h1 (sweepStep_clients_mem isPub pf st c x hm)
  · exact fun hm => h2 (sweepStep_subscribers_mem isPub pf st c x hm)
  · rcases sweepStep_publisher isPub pf st c with hp | hp <;> rw [hp]
    · exact h3
    · simp

/-- Folding sweep visits never grows the client list. -/
theorem sweepFold_clients_mem (isPub pf : Nat → Bool) (l : List Nat) :
    ∀ (st : LiveState) (x : Nat),
      x ∈ (l.foldl (sweepStep isPub pf) st).clients → x ∈ st.clients := by
  induction l with
  | nil => intro st x h; exact h
  | cons c rest ih =>
      intro st x h
      exact sweepStep_clients_mem isPub pf st c x
        (ih (sweepStep isPub pf st c) x h)

/-- Folding sweep visits never grows the consumer set. -/
theorem sweepFold_subscribers_mem (isPub pf : Nat → Bool) (l : List Nat) :
    ∀ (st : LiveState) (x : Nat),
      x ∈ (l.foldl (sweepStep isPub pf) st).subscribers →
        x ∈ st.subscribers := by
  induction l with
  | nil => intro st x h; exact h
  | cons c rest ih =>
      intro st x h
      exact sweepStep_subscribers_mem isPub pf st c x
        (ih (sweepStep isPub pf st c) x h)

/-- Folding sweep visits leaves the producer slot unchanged or clears it. -/
theorem sweepFold_publisher (isPub pf : Nat → Bool) (l : List Nat) :
    ∀ st : LiveState,
      (l.foldl (sweepStep isPub pf) st).publisher = st.publisher ∨
      (l.foldl (sweepStep isPub pf) st).publisher = none := by
  induction l with
  | nil => intro st; left; rfl
  | cons c rest ih =>
      intro st
      rcases ih (sweepStep isPub pf st c) with h | h
      · rcases sweepStep_publisher isPub pf st c with h2 | h2
        · left; rw [List.foldl_cons, h, h2]
        · right; rw [List.foldl_cons, h, h2]
      · right; rw [List.foldl_cons, h]

/-- A down flag stays down across a fold of sweep visits. -/
theorem sweepFold_isAlive_false (isPub pf : Nat → Bool) (l : List Nat) :
    ∀ (st : LiveState) (x : Nat), st.isAlive x = false →
      (l.foldl (sweepStep isPub pf) st).isAlive x = false := by
  induction l with
  | nil => intro st x h; exact h
  | cons c rest ih =>
      intro st x h
      exact ih (sweepStep isPub pf st c) x
        (sweepStep_isAlive_false isPub pf st c x h)

/-- Duplicate-freeness of both lists survives a fold of sweep visits. -/
theorem sweepFold_nodup (isPub pf : Nat → Bool) (l : List Nat) :
    ∀ st : LiveState, st.clients.Nodup → st.subscribers.Nodup →
      (l.foldl (sweepStep isPub pf) st).clients.Nodup ∧
      (l.foldl (sweepStep isPub pf) st).subscribers.Nodup := by
  induction l with
  | nil => intro st h1 h2; exact ⟨h1, h2⟩
  | cons c rest ih =>
      intro st h1 h2
      exact ih (sweepStep isPub pf st c)
        (sweepStep_clients_nodup isPub pf st c h1)
        (sweepStep_subscribers_nodup isPub pf st c h2)

/-- Eviction is absorbing across a fold of sweep visits. -/
theorem sweepFold_evicted (isPub pf : Nat → Bool) (l : List Nat) :
    ∀ (st : LiveState) (x : Nat), evictedFrom x st →
      evictedFrom x (l.foldl (sweepStep isPub pf) st) := by
  induction l with
  | nil => intro st x h; exact h
  | cons c rest ih =>
      intro st x h
      exact ih (sweepStep isPub pf st c) x (sweepStep_evicted isPub pf st c x h)

/-- A fold of sweep visits that never visits `x` preserves `x` completely:
transport membership, registry membership, slot occupancy and flag. -/
theorem sweepFold_other (isPub pf : Nat → Bool) (l : List Nat) (x : Nat) :
    ∀ st : LiveState, x ∉ l →
      (x ∈ st.clients → x ∈ (l.foldl (sweepStep isPub pf) st).clients) ∧
      (x ∈ st.subscribers →
          x ∈ (l.foldl (sweepStep isPub pf) st).subscribers) ∧
      (st.publisher = some x →
          (l.foldl (sweepStep isPub pf) st).publisher = some x) ∧
      (l.foldl (sweepStep isPub pf) st).isAlive x = st.isAlive x := by
  induction l with
  | nil => intro st _; exact ⟨id, id, fun h => h, rfl⟩
  | cons c rest ih =>
      intro st hx
      have hxc : x ≠ c := fun h => hx (h ▸ List.mem_cons_self c rest)
      have hxr : x ∉ rest := fun h => hx (List.mem_cons_of_mem c h)
      have hstep := sweepStep_other isPub pf st c x hxc
      have hrest := ih (sweepStep isPub pf st c) hxr
      refine ⟨?_, ?_, ?_, ?_⟩
      · exact fun h => hrest.1 (hstep.1 h)
      · exact fun h => hrest.2.1 (hstep.2.1 h)
      · exact fun h => hrest.2.2.1 (hstep.2.2.1 h)
      · rw [List.foldl_cons, hrest.2.2.2, hstep.2.2.2]

/-- Terminating a connection whose role is consistent with the registry
removes it from the transport set and from both registry slots. -/
theorem terminateConn_evicts (isPub : Nat → Bool) (x : Nat) (st : LiveState)
    (hnc : st.clients.Nodup) (hns : st.subscribers.Nodup)
    (hcp : st.publisher = some x → isPub x = true)
    (hcs : x ∈ st.subscribers → isPub x = false) :
    evictedFrom x (terminateConn isPub x st) := by
  refine ⟨?_, ?_, ?_⟩
  · rw [terminateConn_clients]
    exact hnc.not_mem_erase
  · by_cases hrole : isPub x = true
    · have hxs : x ∉ st.subscribers := fun h => by
        rw [hcs h] at hrole; exact Bool.false_ne_true hrole
      intro hmem
      rcases terminateConn_subscribers isPub x st with h | h <;> rw [h] at hmem
      · exact hxs hmem
      · exact hxs (List.mem_of_mem_erase hmem)
    · unfold terminateConn closeHandlerL
      simp only [hrole, if_false]
      exact hns.not_mem_erase
  · by_cases hrole : isPub x = true
    · unfold terminateConn closeHandlerL
      simp only [hrole, if_true]
      by_cases hp : st.publisher = some x <;> simp [hp]
    · have hpx : st.publisher ≠ some x := fun h => by
        rw [hcp h] at hrole; exact hrole rfl
      rcases terminateConn_publisher isPub x st with h | h <;> rw [h]
      · exact hpx
      · simp

/-- A sweep evicts a silent connection: if a connection is a current client,
its liveness flag is down at sweep time, and the registry is consistent with
the roles fixed at connect time (duplicate-free lists, the slot occupant has
producer role, consumer-set members have consumer role), then after the sweep
the connection is terminated and out of both registry sets. -/
theorem sweep_evicts (isPub pf : Nat → Bool) (st : LiveState) (conn : Nat)
    (hnc : st.clients.Nodup) (hns : st.subscribers.Nodup)
    (hc : conn ∈ st.clients) (ha : st.isAlive conn = false)
    (hcp : st.publisher = some conn → isPub conn = true)
    (hcs : conn ∈ st.subscribers → isPub conn = false) :
    evictedFrom conn (sweep isPub pf st) := by
  obtain ⟨l1, l2, hsplit⟩ := List.append_of_mem hc
  rw [sweep, hsplit, List.foldl_append, List.foldl_cons]
  set A := l1.foldl (sweepStep isPub pf) st with hA
  have hAnodup := sweepFold_nodup isPub pf l1 st hnc hns
  have hAalive : A.isAlive conn = false :=
    sweepFold_isAlive_false isPub pf l1 st conn ha
  have hAcp : A.publisher = some conn → isPub conn = true := by
    intro h
    rcases sweepFold_publisher isPub pf l1 st with h2 | h2
    · exact hcp (by rw [← h2]; exact h)
    · rw [h2] at h; exact absurd h (by simp)
  have hAcs : conn ∈ A.subscribers → isPub conn = false := by
    intro h
    exact hcs (sweepFold_subscribers_mem isPub pf l1 st conn h)
  have hstep : sweepStep isPub pf A conn = terminateConn isPub conn A := by
    rcases sweepStep_cases isPub pf A conn with ⟨_, h⟩ | ⟨h1, _, _⟩ | ⟨h1, _, _⟩
    · exact h
    · rw [hAalive] at h1; exact absurd h1 (by simp)
    · rw [hAalive] at h1; exact absurd h1 (by simp)
  rw [hstep]
  exact sweepFold_evicted isPub pf l2 _ conn
    (terminateConn_evicts isPub conn A hAnodup.1 hAnodup.2 hAcp hAcs)

/-- A sweep keeps a responsive connection: if its flag is up at sweep time
and its ping does not fail, the sweep removes it from nothing. -/
theorem sweep_keeps (isPub pf : Nat → Bool) (st : LiveState) (conn : Nat)
    (hnc : st.clients.Nodup) (ha : st.isAlive conn = true)
    (hp : pf conn = false) :
    (conn ∈ st.clients → conn ∈ (sweep isPub pf st).clients) ∧
    (conn ∈ st.subscribers → conn ∈ (sweep isPub pf st).subscribers) ∧
    (st.publisher = some conn → (sweep isPub pf st).publisher = some conn) := by
  by_cases hc : conn ∈ st.clients
  · obtain ⟨l1, l2, hsplit⟩ := List.append_of_mem hc
    have hnd2 : (l1 ++ conn :: l2).Nodup := by rw [← hsplit]; exact hnc
    have hnl1 : conn ∉ l1 := by
      intro h
      have := (List.nodup_append.mp hnd2).2.2
      exact this h (List.mem_cons_self conn l2)
    have hnl2 : conn ∉ l2 :=
      (List.nodup_cons.mp (List.nodup_append.mp hnd2).2.1).1
    rw [sweep, hsplit, List.foldl_append, List.foldl_cons]
    set A := l1.foldl (sweepStep isPub pf) st with hA
    have hpre := sweepFold_other isPub pf l1 conn st hnl1
    have hAalive : A.isAlive conn = true := by rw [← ha]; exact hpre.2.2.2
    have hstep : sweepStep isPub pf A conn = flagCleared conn A := by
      rcases sweepStep_cases isPub pf A conn with ⟨h1, _⟩ | ⟨_, h1, _⟩ | ⟨_, _, h⟩
      · rw [hAalive] at h1; exact absurd h1 (by simp)
      · rw [hp] at h1; exact absurd h1 (by simp)
      · exact h
    have hsuf := sweepFold_other isPub pf l2 conn (flagCleared conn A) hnl2
    refine ⟨?_, ?_, ?_⟩
    · intro _
      rw [hstep]
      exact hsuf.1 (hpre.1 hc)
    · intro h
      rw [hstep]
      exact hsuf.2.1 (hpre.2.1 h)
    · intro h
      rw [hstep]
      exact hsuf.2.2.1 (hpre.2.2.1 h)
  · have h := sweepFold_other isPub pf st.clients conn st hc
    exact ⟨fun hm => absurd hm hc, fun hm => h.2.1 hm, fun hm => h.2.2.1 hm⟩

/-- Pong processing touches only the liveness flags. -/
theorem applyPongs_fields (pongs : List Nat) :
    ∀ st : LiveState,
      (applyPongs pongs st).clients = st.clients ∧
      (applyPongs pongs st).subscribers = st.subscribers ∧
      (applyPongs pongs st).publisher = st.publisher := by
  induction pongs with
  | nil => intro st; exact ⟨rfl, rfl, rfl⟩
  | cons c rest ih =>
      intro st
      exact ih (pongHandler c st)

/-- A flag already up stays up under further pongs. -/
theorem applyPongs_keeps_true (conn : Nat) (pongs : List Nat) :
    ∀ st : LiveState, st.isAlive conn = true →
      (applyPongs pongs st).isAlive conn = true := by
  induction pongs with
  | nil => intro st h; exact h
  | cons c rest ih =>
      intro st h
      refine ih (pongHandler c st) ?_
      simp only [pongHandler]
      by_cases hx : conn = c <;> simp [hx, h]

/-- A connection that ponged since the last sweep has its flag up. -/
theorem applyPongs_sets_true (conn : Nat) (pongs : List Nat) :
    ∀ st : LiveState, conn ∈ pongs →
      (applyPongs pongs st).isAlive conn = true := by
  induction pongs with
  | nil => intro st h; exact absurd h (List.not_mem_nil conn)
  | cons c rest ih =>
      intro st h
      by_cases hx : conn = c
      · refine applyPongs_keeps_true conn rest (pongHandler c st) ?_
        simp [pongHandler, hx]
      · exact ih (pongHandler c st) (by
          rcases List.mem_cons.mp h with h1 | h1
          · exact absurd h1 hx
          · exact h1)

/-- Duplicate-freeness of the client list alone survives a fold of sweep
visits. -/
theorem sweepFold_clients_nodup (isPub pf : Nat → Bool) (l : List Nat) :
    ∀ st : LiveState, st.clients.Nodup →
      (l.foldl (sweepStep isPub pf) st).clients.Nodup := by
  induction l with
  | nil => intro st h; exact h
  | cons c rest ih =>
      intro st h
      exact ih (sweepStep isPub pf st c) (sweepStep_clients_nodup isPub pf st c h)

/-- Over any run of supervision rounds, a connection that pongs before every
sweep and whose pings never fail keeps its transport membership, its
consumer-set membership and its hold on the producer slot. -/
theorem runRounds_keeps (isPub : Nat → Bool) (conn : Nat) :
    ∀ (rounds : List (List Nat × (Nat → Bool))) (st : LiveState),
      st.clients.Nodup →
      (∀ r ∈ rounds, conn ∈ r.1 ∧ r.2 conn = false) →
      (conn ∈ st.clients → conn ∈ (runRounds isPub rounds st).clients) ∧
      (conn ∈ st.subscribers →
          conn ∈ (runRounds isPub rounds st).subscribers) ∧
      (st.publisher = some conn →
          (runRounds isPub rounds st).publisher = some conn) := by
  intro rounds
  induction rounds with
  | nil => intro st _ _; exact ⟨id, id, fun h => h⟩
  | cons r rest ih =>
      intro st hnd hall
      have hr := hall r (List.mem_cons_self r rest)
      have hfields := applyPongs_fields r.1 st
      have halive : (applyPongs r.1 st).isAlive conn = true :=
        applyPongs_sets_true conn r.1 st hr.1
      have hnd1 : (applyPongs r.1 st).clients.Nodup := by
        rw [hfields.1]; exact hnd
      have hk := sweep_keeps isPub r.2 (applyPongs r.1 st) conn hnd1 halive hr.2
      have hnd2 : (sweep isPub r.2 (applyPongs r.1 st)).clients.Nodup :=
        sweepFold_clients_nodup isPub r.2 _ _ hnd1
      have hih := ih (sweep isPub r.2 (applyPongs r.1 st)) hnd2
        (fun r2 hr2 => hall r2 (List.mem_cons_of_mem r hr2))
      have hrun : runRounds isPub (r :: rest) st
          = runRounds isPub rest (sweep isPub r.2 (applyPongs r.1 st)) := rfl
      rw [hrun]
      refine ⟨?_, ?_, ?_⟩
      · intro h
        exact hih.1 (hk.1 (by rw [hfields.1]; exact h))
      · intro h
        exact hih.2.1 (hk.2.1 (by rw [hfields.2.1]; exact h))
      · intro h
        exact hih.2.2 (hk.2.2 (by rw [hfields.2.2]; exact h))

/-- Claim C3 — Liveness eviction: (1) a connection whose liveness flag is still
down when a sweep runs (it never responded to the probe of the previous
sweep) is terminated by that sweep and removed from the transport set, the
consumer set and the producer slot — whichever it occupied; (2) a connection
that responds to every probe before the next sweep (and whose probe sends
succeed) survives any run of supervision rounds: it stays a client, stays in
the consumer set if it was there, and keeps the producer slot if it held
it. -/
theorem C3_liveness_eviction :
    (∀ (isPub pf : Nat → Bool) (st : LiveState) (conn : Nat),
        st.clients.Nodup → st.subscribers.Nodup →
        conn ∈ st.clients → st.isAlive conn = false →
        (st.publisher = some conn → isPub conn = true) →
        (conn ∈ st.subscribers → isPub conn = false) →
        conn ∉ (sweep isPub pf st).clients ∧
        conn ∉ (sweep isPub pf st).subscribers ∧
        (sweep isPub pf st).publisher ≠ some conn) ∧
    (∀ (isPub : Nat → Bool) (rounds : List (List Nat × (Nat → Bool)))
        (st : LiveState) (conn : Nat),
        st.clients.Nodup →
        (∀ r ∈ rounds, conn ∈ r.1 ∧ r.2 conn = false) →
        (conn ∈ st.clients → conn ∈ (runRounds isPub rounds st).clients) ∧
        (conn ∈ st.subscribers →
            conn ∈ (runRounds isPub rounds st).subscribers) ∧
        (st.publisher = some conn →
            (runRounds isPub rounds st).publisher = some conn)) :=
  ⟨fun isPub pf st conn h1 h2 h3 h4 h5 h6 =>
      sweep_evicts isPub pf st conn h1 h2 h3 h4 h5 h6,
   fun isPub rounds st conn h1 h2 => runRounds_keeps isPub conn rounds st h1 h2⟩

/-- Closed witness for `C3_liveness_eviction`: a silent subscriber 0 is
evicted by one sweep; a responsive client 0 survives a round. -/
theorem C3_liveness_eviction_witness :
    ((0 : Nat) ∈ ([0] : List Nat)) ∧
    (0 ∉ (sweep (fun _ => false) (fun _ => false)
        { clients := [0], isAlive := fun _ => false,
          subscribers := [0], publisher := none }).clients ∧
     0 ∉ (sweep (fun _ => false) (fun _ => false)
        { clients := [0], isAlive := fun _ => false,
          subscribers := [0], publisher := none }).subscribers ∧
     (sweep (fun _ => false) (fun _ => false)
        { clients := [0], isAlive := fun _ => false,
          subscribers := [0], publisher := none }).publisher ≠ some 0) ∧
    0 ∈ (runRounds (fun _ => false) [([0], fun _ => false)]
        { clients := [0], isAlive := fun _ => true,
          subscribers := [], publisher := none }).clients := by
  refine ⟨by decide, ?_, ?_⟩
  · exact C3_liveness_eviction.1 (fun _ => false) (fun _ => false)
      { clients := [0], isAlive := fun _ => false,
        subscribers := [0], publisher := none } 0
      (by decide) (by decide) (by decide) rfl
      (fun h => absurd h (by decide)) (fun _ => rfl)
  · refine (C3_liveness_eviction.2 (fun _ => false) [([0], fun _ => false)]
      { clients := [0], isAlive := fun _ => true,
        subscribers := [], publisher := none } 0
      (by decide) ?_).1 (by decide)
    intro r hr
    have hr2 : r = (([0] : List Nat), (fun _ => false : Nat → Bool)) :=
      List.mem_singleton.mp hr
    subst hr2
    exact ⟨by decide, rfl⟩
